import Mathlib

/-!
Verification development for the DFIR Threat-Hunting-And-Forensics pipeline
(`frontend/app.py`, `main.py`, `agents/reporting_agent.py`).

Strings are modelled as `List Char` (named `Str` below).  Python string
operations used by the code (`str.replace`, `str.rsplit`, `str.lower`,
membership tests) are embedded as executable Lean functions.  Python case
mapping is modelled for ASCII letters only; no input in the repository
exercises non-ASCII case folding.
-/

set_option maxRecDepth 10000

abbrev Str := List Char

def lbrace : Char := Char.ofNat 123

def rbrace : Char := Char.ofNat 125

/-- Checks whether the first list is a prefix of the second. -/
def isPre : Str → Str → Bool
  | [], _ => true
  | _ :: _, [] => false
  | a :: as, b :: bs => if a = b then isPre as bs else false

/-- Fuelled scanner behind `replaceAll`; structural recursion on the fuel so
that the kernel can evaluate it on concrete inputs. -/
def replaceAllGo (pat rep : Str) : Nat → Str → Str
  | _, [] => []
  | 0, s => s
  | fuel + 1, c :: cs =>
    if pat ≠ [] ∧ isPre pat (c :: cs) then
      rep ++ replaceAllGo pat rep fuel (cs.drop (pat.length - 1))
    else
      c :: replaceAllGo pat rep fuel cs

/-- Embedding of Python `str.replace(pat, rep)`: replaces every
non-overlapping occurrence of `pat` left-to-right (for nonempty `pat`;
an empty `pat` leaves the string unchanged, a case never used by the code). -/
def replaceAll (pat rep s : Str) : Str := replaceAllGo pat rep s.length s

/-- Fuelled scanner behind `occurrences`. -/
def occurrencesGo (pat : Str) : Nat → Str → Nat
  | _, [] => 0
  | 0, _ => 0
  | fuel + 1, c :: cs =>
    if pat ≠ [] ∧ isPre pat (c :: cs) then
      1 + occurrencesGo pat fuel (cs.drop (pat.length - 1))
    else
      occurrencesGo pat fuel cs

/-- Counts the non-overlapping occurrences of `pat`, scanning left-to-right. -/
def occurrences (pat s : Str) : Nat := occurrencesGo pat s.length s

/-- Placeholder names as they appear in the template: nonempty and free of
both brace characters. -/
def nameOK (n : Str) : Prop := n ≠ [] ∧ ∀ c ∈ n, c ≠ lbrace ∧ c ≠ rbrace

instance (n : Str) : Decidable (nameOK n) := by
  unfold nameOK
  infer_instance

/-- Text of the template placeholder for a field name, two braces on each
side, mirroring the Python f-string pattern used by the replacement loop. -/
def wrap (name : Str) : Str := lbrace :: lbrace :: (name ++ [rbrace, rbrace])

/-- Characters of a string that never interact with placeholder tokens. -/
def braceFreeS (s : Str) : Prop := ∀ c ∈ s, c ≠ lbrace ∧ c ≠ rbrace

instance (s : Str) : Decidable (braceFreeS s) := by
  unfold braceFreeS
  infer_instance

/-- Abstract template shape: an interleaving of literal runs and placeholder
tokens.  `joinSegs` recovers the raw template text the Python code sees. -/
inductive Seg where
  | lit (s : Str)
  | ph (name : Str)
deriving DecidableEq

def Seg.text : Seg → Str
  | .lit s => s
  | .ph n => wrap n

def joinSegs : List Seg → Str
  | [] => []
  | sg :: rest => sg.text ++ joinSegs rest

def SegOK : Seg → Prop
  | .lit s => braceFreeS s
  | .ph n => nameOK n

instance (sg : Seg) : Decidable (SegOK sg) := by
  cases sg <;> · unfold SegOK; infer_instance

/-- Effect of one replacement pass on one template segment. -/
def passSeg (P rep : Str) : Seg → Seg
  | .lit s => .lit s
  | .ph q => if q = P then .lit rep else .ph q

/-- Runs the ordered list of replacement passes over the raw template,
exactly as the Python loop body `html = html.replace(...)` does. -/
def applyPasses (ps : List (Str × Str)) (t : Str) : Str :=
  ps.foldl (fun h pr => replaceAll (wrap pr.1) pr.2 h) t

def passesSegs (ps : List (Str × Str)) (segs : List Seg) : List Seg :=
  ps.foldl (fun sgs pr => sgs.map (passSeg pr.1 pr.2)) segs

/-- JSON values as produced by `json.load` / consumed by the workers. -/
inductive JValue where
  | str (s : Str)
  | num (n : Int)
  | bool (b : Bool)
  | null
  | arr (xs : List JValue)
  | obj (fields : List (Str × JValue))

def squote : Char := Char.ofNat 39

mutual

/-- Embedding of Python `repr` on JSON-shaped values (quote escaping inside
reprs of strings is not modelled; no artifact field in the claims contains a
quote, and `repr` is only reached through `str()` on non-string values). -/
def pyRepr : JValue → Str
  | .str s => squote :: (s ++ [squote])
  | .num n => (toString n).data
  | .bool b => if b then "True".data else "False".data
  | .null => "None".data
  | .arr xs => Char.ofNat 91 :: (pyReprItems xs ++ [Char.ofNat 93])
  | .obj fs => lbrace :: (pyReprFields fs ++ [rbrace])

def pyReprItems : List JValue → Str
  | [] => []
  | [x] => pyRepr x
  | x :: y :: rest => pyRepr x ++ (", ".data ++ pyReprItems (y :: rest))

def pyReprFields : List (Str × JValue) → Str
  | [] => []
  | [(k, v)] => (squote :: (k ++ [squote])) ++ (": ".data ++ pyRepr v)
  | (k, v) :: f2 :: rest =>
      (squote :: (k ++ [squote])) ++ (": ".data ++ pyRepr v) ++ (", ".data ++ pyReprFields (f2 :: rest))

end

/-- Embedding of Python `str()` as used in the f-strings and `str(value)`
calls of the replacement loops. -/
def pyStr : JValue → Str
  | .str s => s
  | v => pyRepr v

/-- First binding of a key in a JSON object (Python dicts hold each key
once, so first-match lookup coincides with dict indexing). -/
def lookupJ : List (Str × JValue) → Str → Option JValue
  | [], _ => none
  | (k2, v) :: rest, k => if k2 = k then some v else lookupJ rest k

/-- Embedding of Python `k in d`. -/
def hasKey (fs : List (Str × JValue)) (k : Str) : Bool :=
  (lookupJ fs k).isSome

/-- Embedding of Python `d.get(k, default)`. -/
def getOr (fs : List (Str × JValue)) (k : Str) (d : JValue) : JValue :=
  (lookupJ fs k).getD d

/-- Names substituted by the first replacement loop of
`generate_html_from_template` (the `simple_replacements` dict, in insertion
order). -/
def simpleKeys : List Str :=
  ["INCIDENT_TITLE", "INCIDENT_DATES", "EXECUTIVE_SUMMARY",
   "TIMELINE_DESCRIPTION", "FORENSIC_CONCLUSION", "REPORT_FOOTER"].map String.data

/-- Names substituted by the second replacement loop (the `html_content`
dict, in insertion order). -/
def htmlContentKeys : List Str :=
  ["ENTRY_POINTS_CONTENT", "IOCS_CONTENT", "RECOMMENDATIONS_CONTENT"].map String.data

/-- One statistics card, matching the f-string of the STATISTICS_CARDS loop. -/
def statCard (number label : JValue) : Str :=
  "<div class=\"stat-card\"><div class=\"number\">".data ++ pyStr number ++
  "</div><div class=\"label\">".data ++ pyStr label ++ "</div></div>\n".data

/-- STATISTICS_CARDS loop body: `.get` on a non-dict element raises, which the
outer `except` turns into an error return. -/
def buildStatsCards : List JValue → Except Str Str
  | [] => .ok []
  | stat :: rest =>
    match stat with
    | .obj fs =>
      match buildStatsCards rest with
      | .ok restH =>
          .ok (statCard (getOr fs "number".data (.num 0)) (getOr fs "label".data (.str [])) ++ restH)
      | .error e => .error e
    | _ => .error "AttributeError: no attribute get".data

/-- One timeline item, matching the f-string of the TIMELINE_EVENTS loop. -/
def timelineItem (timestamp title description source_ip target_ip : JValue) : Str :=
  "<div class=\"timeline-item\">\n                    <div class=\"timeline-dot\"></div>\n                    <div class=\"timeline-time\">".data ++ pyStr timestamp ++
  "</div>\n                    <div class=\"timeline-content\">\n                        <div class=\"timeline-title\">".data ++ pyStr title ++
  "</div>\n                        <p>".data ++ pyStr description ++
  "</p>\n                        <small>Source: ".data ++ pyStr source_ip ++
  " → Target: ".data ++ pyStr target_ip ++
  "</small>\n                    </div>\n                </div>\n".data

def buildTimeline : List JValue → Except Str Str
  | [] => .ok []
  | ev :: rest =>
    match ev with
    | .obj fs =>
      match buildTimeline rest with
      | .ok restH =>
          .ok (timelineItem (getOr fs "timestamp".data (.str []))
            (getOr fs "title".data (.str [])) (getOr fs "description".data (.str []))
            (getOr fs "source_ip".data (.str "N/A".data))
            (getOr fs "target_ip".data (.str "N/A".data)) ++ restH)
      | .error e => .error e
    | _ => .error "AttributeError: no attribute get".data

/-- Embedding of Python iteration over an arbitrary value (`for detail in
details`): lists yield elements, strings yield their characters, dicts yield
their keys, other values raise TypeError. -/
def pyIter : JValue → Except Str (List JValue)
  | .arr xs => .ok xs
  | .str s => .ok (s.map (fun c => JValue.str [c]))
  | .obj fs => .ok (fs.map (fun kv => JValue.str kv.1))
  | _ => .error "TypeError: not iterable".data

/-- One objective card, matching the f-string of the ATTACK_OBJECTIVES loop. -/
def objectiveCard (objective : JValue) (detailsList : Str) : Str :=
  "<div class=\"objective-card\">\n                    <h3>".data ++ pyStr objective ++
  "</h3>\n                    <ul>".data ++ detailsList ++
  "</ul>\n                </div>\n".data

def buildObjectives : List JValue → Except Str Str
  | [] => .ok []
  | ob :: rest =>
    match ob with
    | .obj fs =>
      match pyIter (getOr fs "details".data (.arr [])) with
      | .error e => .error e
      | .ok ds =>
        match buildObjectives rest with
        | .ok restH =>
            .ok (objectiveCard (getOr fs "objective".data (.str []))
              ((ds.map (fun d => "<li>".data ++ pyStr d ++ "</li>".data)).foldr (· ++ ·) []) ++ restH)
        | .error e => .error e
    | _ => .error "AttributeError: no attribute get".data

/-- STATISTICS_CARDS block: converts the array to HTML when the key holds a
list, and substitutes the empty string otherwise. -/
def statsPart (data : List (Str × JValue)) : Except Str Str :=
  match lookupJ data "STATISTICS_CARDS".data with
  | some (.arr cards) => buildStatsCards cards
  | _ => .ok []

/-- TIMELINE_EVENTS block. -/
def timelinePart (data : List (Str × JValue)) : Except Str Str :=
  match lookupJ data "TIMELINE_EVENTS".data with
  | some (.arr evs) => buildTimeline evs
  | _ => .ok []

/-- ATTACK_OBJECTIVES block. -/
def objectivesPart (data : List (Str × JValue)) : Except Str Str :=
  match lookupJ data "ATTACK_OBJECTIVES".data with
  | some (.arr obs) => buildObjectives obs
  | _ => .ok []

/-- Embedding of the template-substitution tool of the reporting agent
(`agents/reporting_agent.py`, `generate_html_from_template`), as a pure
function of the parsed artifact object and the raw template text.  An
`error` result models the outer `except` returning an error message instead
of HTML (and skipping the file write); a raised exception discards the
partially substituted text, so propagating the first error is equivalent to
the sequential Python statement order. -/
def generate_html_from_template (data : List (Str × JValue)) (template : Str) : Except Str Str :=
  let html1 := (simpleKeys.map (fun k => (k, pyStr (getOr data k (.str []))))).foldl
    (fun h pr => replaceAll (wrap pr.1) pr.2 h) template
  let html2 := (htmlContentKeys.map (fun k => (k, pyStr (getOr data k (.str []))))).foldl
    (fun h pr => replaceAll (wrap pr.1) pr.2 h) html1
  match statsPart data with
  | .error e => .error e
  | .ok statsHtml =>
    let html3 := replaceAll (wrap "STATISTICS_CARDS".data) statsHtml html2
    match timelinePart data with
    | .error e => .error e
    | .ok timelineHtml =>
      let html4 := replaceAll (wrap "TIMELINE_EVENTS".data) timelineHtml html3
      match objectivesPart data with
      | .error e => .error e
      | .ok objectivesHtml =>
          .ok (replaceAll (wrap "ATTACK_OBJECTIVES".data) objectivesHtml html4)

/-- Durable files touched by the report stage: the artifact (read-only for
this stage), the HTML template (read-only), and the rendered output. -/
structure RenderFS where
  dfir_analysis : Option JValue
  template : Option Str
  dfir_report : Option Str

/-- One run of the report rendering over the file system: reads the artifact
and the template, runs the substitution, writes `dfir_report.html` on
success; any exception (missing file, non-dict artifact, bad element) leaves
the previous rendered output in place. -/
def runReportRender (fs : RenderFS) : RenderFS :=
  match fs.dfir_analysis, fs.template with
  | some (.obj fields), some t =>
    match generate_html_from_template fields t with
    | .ok h => { fs with dfir_report := some h }
    | .error _ => fs
  | _, _ => fs

/-- Every placeholder name handled by `generate_html_from_template`, in the
order the passes run. -/
def handledNames : List Str :=
  simpleKeys ++ htmlContentKeys ++
    ["STATISTICS_CARDS".data, "TIMELINE_EVENTS".data, "ATTACK_OBJECTIVES".data]

/-- The artifact object of the C6 scenario. -/
def fields6 : List (Str × JValue) :=
  [("EXECUTIVE_SUMMARY".data, JValue.str "x".data),
   ("STATISTICS_CARDS".data,
     JValue.arr [JValue.obj [("number".data, JValue.num 3), ("label".data, JValue.str "IOCs".data)]])]

/-- The single generated stat-card for the C6 artifact. -/
def card3IOCs : Str := statCard (JValue.num 3) (JValue.str "IOCs".data)

/-- The twelve replacement passes `generate_html_from_template` performs for
the C6 artifact, in execution order, with the replacement text each uses. -/
def passList6 : List (Str × Str) :=
  [("INCIDENT_TITLE".data, []), ("INCIDENT_DATES".data, []),
   ("EXECUTIVE_SUMMARY".data, "x".data), ("TIMELINE_DESCRIPTION".data, []),
   ("FORENSIC_CONCLUSION".data, []), ("REPORT_FOOTER".data, []),
   ("ENTRY_POINTS_CONTENT".data, []), ("IOCS_CONTENT".data, []),
   ("RECOMMENDATIONS_CONTENT".data, []),
   ("STATISTICS_CARDS".data, card3IOCs),
   ("TIMELINE_EVENTS".data, []), ("ATTACK_OBJECTIVES".data, [])]

def lookupS : List (Str × Str) → Str → Option Str
  | [], _ => none
  | (k, v) :: rest, q => if k = q then some v else lookupS rest q

/-- Net effect of the C6 pass sequence on one template segment. -/
def rSeg6 : Seg → Seg
  | .lit s => .lit s
  | .ph q =>
    match lookupS passList6 q with
    | some v => .lit v
    | none => .ph q

/-- Template well-formedness for the C6 scenario: literal runs contain no
brace and every placeholder is one the code handles. -/
def handledSeg : Seg → Prop
  | .lit s => braceFreeS s
  | .ph n => n ∈ handledNames

instance (sg : Seg) : Decidable (handledSeg sg) := by
  cases sg <;> · unfold handledSeg; infer_instance

/-- Template of the C6 counterexample: it contains the STATISTICS_CARDS
placeholder (as the claim requires) plus one token outside the handled set. -/
def tBad6 : Str := wrap "STATISTICS_CARDS".data ++ wrap "FOO".data

/-- Validation outcomes for the artifact read back from
`dfir_reports/dfir_analysis.json` (worker lines 137-162 of
`frontend/app.py`, mirrored in `main.py`). -/
inductive Validity where
  | Valid
  | ValidLegacy
  | Invalid
deriving DecidableEq

/-- Classification of a parsed artifact record: the structured-JSON check
(`isinstance(saved_json, dict)` plus the summary-key test), then the
old-format `analysis` check, then the invalid-structure `raise`. -/
def validate : JValue → Validity
  | .obj fs =>
    if hasKey fs "EXECUTIVE_SUMMARY".data || hasKey fs "executive_summary".data then .Valid
    else if hasKey fs "analysis".data then .ValidLegacy
    else .Invalid
  | _ => .Invalid

/-- Python `if k not in d: d[k] = v` (insertion appends at the end). -/
def addKeyIfAbsent (fs : List (Str × JValue)) (k : Str) (v : JValue) : List (Str × JValue) :=
  if hasKey fs k then fs else fs ++ [(k, v)]

/-- Metadata completion applied to a valid or legacy saved artifact:
timestamp and file_path are added only when absent. -/
def withRunMetadata (fs : List (Str × JValue)) (ts fp : Str) : List (Str × JValue) :=
  addKeyIfAbsent (addKeyIfAbsent fs "timestamp".data (.str ts)) "file_path".data (.str fp)

/-- Python `d[k] = v`: overwrite in place when present, append otherwise. -/
def setKeyJ (fs : List (Str × JValue)) (k : Str) (v : JValue) : List (Str × JValue) :=
  if hasKey fs k then fs.map (fun kv => if kv.1 = k then (k, v) else kv) else fs ++ [(k, v)]

/-- The degraded single-field wrap of the engine's raw textual output. -/
def wrapLegacy (raw ts fp : Str) : JValue :=
  .obj [("analysis".data, .str raw), ("timestamp".data, .str ts), ("file_path".data, .str fp)]

/-- Fallback path of the analysis worker (lines 172-197): parse the engine's
textual return value; a parsed dict gets metadata assigned, anything else
(non-dict JSON or a parse failure) is wrapped under `analysis`. -/
def fallbackFromOutput (finalParsed : Option JValue) (finalRaw ts fp : Str) : JValue :=
  match finalParsed with
  | some (.obj fs) =>
      .obj (setKeyJ (setKeyJ fs "timestamp".data (.str ts)) "file_path".data (.str fp))
  | _ => wrapLegacy finalRaw ts fp

/-- Artifact record written back by the analysis worker after the engine
call returns: prefer the file on durable storage when it classifies as
Valid/ValidLegacy, otherwise fall back to the textual return value.
`savedFile = none` covers both a missing file and a JSON parse failure,
which share the fallback path in the code. -/
def reconcileArtifactWrite (savedFile finalParsed : Option JValue)
    (finalRaw ts fp : Str) : JValue :=
  match savedFile with
  | some (.obj fs) =>
    if hasKey fs "EXECUTIVE_SUMMARY".data || hasKey fs "executive_summary".data then
      .obj (withRunMetadata fs ts fp)
    else if hasKey fs "analysis".data then
      .obj (withRunMetadata fs ts fp)
    else fallbackFromOutput finalParsed finalRaw ts fp
  | some _ => fallbackFromOutput finalParsed finalRaw ts fp
  | none => fallbackFromOutput finalParsed finalRaw ts fp

/-- The shared status record (the `analysis_status` / `analysis_status_shared`
dict of `frontend/app.py`), with absent keys modelled by their `.get`
defaults. -/
structure StatusRec where
  running : Bool
  progress : Str
  errors : List Str
  warnings : List Str
  current_step : Str
  report_path : Option Str
  dfir_analysis_ready : Bool
deriving DecidableEq

/-- Module-level initial status (`frontend/app.py` lines 35-42). -/
def initialStatus : StatusRec :=
  { running := false, progress := [], errors := [], warnings := [],
    current_step := [], report_path := none, dfir_analysis_ready := false }

/-- Status reset performed by the `/analyze-dfir` route before spawning the
analysis worker (lines 618-627): note `report_path` is not assigned. -/
def resetForAnalysis (st : StatusRec) : StatusRec :=
  { st with
    running := true,
    progress := "Starting DFIR analysis...".data,
    errors := [],
    warnings := [],
    current_step := "DFIR Analysis".data,
    dfir_analysis_ready := false }

/-- Status reset performed by the `/generate-report` route before spawning
the report worker (lines 710-718): again `report_path` is not assigned. -/
def resetForReport (st : StatusRec) : StatusRec :=
  { st with
    running := true,
    progress := "Starting report generation...".data,
    errors := [],
    warnings := [],
    current_step := "Report Generation".data }

/-- Liveness reconciliation block for the analysis stage in the `/status`
route (lines 773-775). -/
def reconcileAnalysis (s : StatusRec) (aS aA : Bool) : StatusRec :=
  if aS = true ∧ aA = false ∧ s.current_step = "DFIR Analysis".data then
    { s with running := false }
  else s

/-- Liveness reconciliation block for the report stage (lines 776-778). -/
def reconcileReport (s : StatusRec) (rS rA : Bool) : StatusRec :=
  if rS = true ∧ rA = false ∧ s.current_step = "Report Generation".data then
    { s with running := false }
  else s

/-- The `/status` route (lines 754-782): snapshots the shared record when it
exists, then reconciles the running flag against worker liveness — but only
when current_step equals the label of the stage whose process died.  `aS`/`rS`
say whether a process handle exists, `aA`/`rA` whether it is alive. -/
def statusEndpoint (shared : Option StatusRec) (localSt : StatusRec)
    (aS aA rS rA : Bool) : StatusRec :=
  match shared with
  | none => localSt
  | some s => reconcileReport (reconcileAnalysis s aS aA) rS rA

/-- Shared-status contents left behind when the analysis worker is killed
between setting current_step = DFIR Completed (line 200) and clearing the
running flag (line 202). -/
def stuckShared : StatusRec :=
  { running := true,
    progress := "DFIR analysis completed successfully".data,
    errors := [],
    warnings := [],
    current_step := "DFIR Completed".data,
    report_path := none,
    dfir_analysis_ready := true }

/-- Outcome of a `/generate-report` request as seen by the caller. -/
inductive RouteOutcome where
  | rejectedRunning
  | rejectedNotFound
  | rejectedResetFailure
  | spawned
deriving DecidableEq

/-- The `/generate-report` route (lines 664-752).  `reportAlive`: an earlier
report process handle exists and is alive; `managerExists`: the
multiprocessing manager was already created; `shared`: the shared status
dict, `none` when not created yet; `fileExists`: whether
`dfir_reports/dfir_analysis.json` exists.  When `shared` is `none` and a
manager exists, the route creates a one-key dict `(dfir_analysis_ready :=
False)`; that dict passes the artifact check but lacks the errors/warnings
lists, so the later status reset raises KeyError and the route returns a
500 without spawning.  When `shared` is `none` and no manager exists, the
artifact check is skipped entirely and a full dict (ready := True) is
created, so a worker is spawned even when the artifact file is missing. -/
def generate_report_route (reportAlive managerExists : Bool)
    (shared : Option StatusRec) (fileExists : Bool) : RouteOutcome :=
  if reportAlive then .rejectedRunning
  else
    match shared with
    | some s =>
      if s.dfir_analysis_ready = false ∧ fileExists = false then .rejectedNotFound
      else .spawned
    | none =>
      if managerExists then
        if fileExists = false then .rejectedNotFound
        else .rejectedResetFailure
      else .spawned

/-- Success/failure flags for the directory-setup step run at the top of
every worker (analysis worker lines 65-86, report worker lines 252-273). -/
structure DirEnv where
  mkdirLogsFails : Bool
  chmodLogsFails : Bool
  mkdirReportsFails : Bool
  chmodReportsFails : Bool
deriving DecidableEq

/-- Directory setup: `mkdir` failures hit the outer `except` (error recorded,
progress set, running cleared, worker returns); `chmod` failures hit the
inner `except (OSError, PermissionError): pass` and are silently dropped.
The exception text appended to the error message is abstracted away.
Second component: whether the worker continues past the setup. -/
def directorySetup (env : DirEnv) (st : StatusRec) : StatusRec × Bool :=
  if env.mkdirLogsFails = true ∨ env.mkdirReportsFails = true then
    ({ st with
        errors := st.errors ++ ["Error creating directories".data],
        progress := "Error: Error creating directories".data,
        running := false }, false)
  else (st, true)

/-- Prefix of `run_report_generation_worker` (lines 242-294) up to the point
where control would continue toward the engine call: directory setup, the
status reset performed inside the worker, then the artifact-existence check.
Second component: whether control proceeds toward the engine invocation. -/
def run_report_generation_worker (env : DirEnv) (fileExists : Bool)
    (st : StatusRec) : StatusRec × Bool :=
  match directorySetup env st with
  | (st1, false) => (st1, false)
  | (st1, true) =>
    let st2 := { st1 with
      running := true,
      errors := [],
      warnings := [],
      progress := "Starting report generation...".data,
      current_step := "Report Generation".data }
    if fileExists = false then
      ({ st2 with
          errors := st2.errors ++ ["DFIR analysis not found. Please run the analysis first.".data],
          progress := "Error: Analysis not found".data,
          current_step := "Error".data,
          running := false }, false)
    else (st2, true)

/-- Environment in which only the permission-relaxation calls fail. -/
def envChmodFail : DirEnv :=
  { mkdirLogsFails := false, chmodLogsFails := true,
    mkdirReportsFails := false, chmodReportsFails := true }

def lookupCC : List (Char × Char) → Char → Option Char
  | [], _ => none
  | (k, v) :: rest, c => if k = c then some v else lookupCC rest c

/-- Uppercase-to-lowercase ASCII table. -/
def asciiLowerTable : List (Char × Char) :=
  [('A', 'a'), ('B', 'b'), ('C', 'c'), ('D', 'd'), ('E', 'e'), ('F', 'f'),
   ('G', 'g'), ('H', 'h'), ('I', 'i'), ('J', 'j'), ('K', 'k'), ('L', 'l'),
   ('M', 'm'), ('N', 'n'), ('O', 'o'), ('P', 'p'), ('Q', 'q'), ('R', 'r'),
   ('S', 's'), ('T', 't'), ('U', 'u'), ('V', 'v'), ('W', 'w'), ('X', 'x'),
   ('Y', 'y'), ('Z', 'z')]

/-- Embedding of Python `str.lower()` restricted to ASCII case mapping (no
repository input exercises non-ASCII case folding). -/
def pyLowerChar (c : Char) : Char :=
  match lookupCC asciiLowerTable c with
  | some v => v
  | none => c

def pyLower (s : Str) : Str := s.map pyLowerChar

/-- Embedding of Python `filename.rsplit(".", 1)[1]`: the substring after
the last dot (meaningful only when a dot is present, which the caller
guards with the short-circuit `and`). -/
def afterLastDot (s : Str) : Str :=
  (s.reverse.takeWhile (fun c => c ≠ '.')).reverse

def ALLOWED_EXTENSIONS : List Str :=
  ["json", "txt", "log", "csv", "xml"].map String.data

/-- Embedding of `allowed_file` (frontend/app.py lines 47-50). -/
def allowed_file (filename : Str) : Bool :=
  decide ('.' ∈ filename) && decide (pyLower (afterLastDot filename) ∈ ALLOWED_EXTENSIONS)

/-- Upload responses.  `saved` records the submitted filename; the
`secure_filename` normalization applied before saving belongs to the
werkzeug library, outside this repository, and acceptance does not depend
on it. -/
inductive UploadResult where
  | errorResp (msg : Str) (code : Nat)
  | saved (filename : Str)
deriving DecidableEq

/-- The `/upload` route (lines 555-577): no file part, empty filename,
extension check, save. -/
def upload_file (filePart : Option Str) : UploadResult :=
  match filePart with
  | none => .errorResp "No file provided".data 400
  | some filename =>
    if filename = [] then .errorResp "No file selected".data 400
    else if allowed_file filename then .saved filename
    else .errorResp "Invalid file type".data 400

/-- Per-run report filename (`frontend/app.py` line 361, identical in
`main.py` line 253): `f"dfir_report_{incident_title.replace(' ', '_').lower()}.html"`. -/
def report_filename (incident_title : Str) : Str :=
  "dfir_report_".data ++ pyLower (replaceAll [' '] ['_'] incident_title) ++ ".html".data

/-- What the spec means by a safe filesystem path component: nonempty, no
separator, no NUL, and not one of the two reserved dot entries. -/
def isSafePathComponent (s : Str) : Prop :=
  s ≠ [] ∧ '/' ∉ s ∧ Char.ofNat 0 ∉ s ∧ s ≠ ".".data ∧ s ≠ "..".data

instance (s : Str) : Decidable (isSafePathComponent s) := by
  unfold isSafePathComponent
  infer_instance

/-- Control position of one in-flight start request inside the route body:
before the `is_alive` check, after the check (remembering its result), and
finished (remembering whether it spawned a worker).  The check (app.py line
586 / 671) and the spawn (line 644-649 / 734-739) are separate statements
with no lock between them. -/
inductive ReqPC where
  | start
  | checked (sawAlive : Bool)
  | finished (spawnedWorker : Bool)
deriving DecidableEq

/-- One micro-step of a request: the check reads current liveness; the
spawn runs only when the check saw no alive worker. -/
def stepPC (pc : ReqPC) (workers : Nat) : ReqPC × Nat :=
  match pc with
  | .start => (.checked (decide (0 < workers)), workers)
  | .checked sawAlive =>
    if sawAlive then (.finished false, workers) else (.finished true, workers + 1)
  | .finished b => (.finished b, workers)

/-- Interleaved execution state for one stage: how many of that stage's
workers are alive (none exit during the trace), and the program counters of
the in-flight start requests. -/
structure RaceState where
  workers : Nat
  pcs : List ReqPC
deriving DecidableEq

/-- Runs request `i` for one micro-step. -/
def stepIdx (s : RaceState) (i : Nat) : RaceState :=
  match s.pcs[i]? with
  | none => s
  | some pc =>
    let r := stepPC pc s.workers
    { workers := r.2, pcs := s.pcs.set i r.1 }

def runSched (s : RaceState) : List Nat → RaceState
  | [] => s
  | i :: rest => runSched (stepIdx s i) rest

/-- A whole start request executed atomically (check, then conditional
spawn, with no interleaving in between). -/
def atomicStart (workers : Nat) : Nat :=
  (stepPC (stepPC ReqPC.start workers).1 workers).2

/-- Events of the serialized per-stage lifecycle. -/
inductive StageEvent where
  | startRequest
  | workerExit
deriving DecidableEq

def stageStep (workers : Nat) : StageEvent → Nat
  | .startRequest => atomicStart workers
  | .workerExit => workers - 1

def runStage (workers : Nat) : List StageEvent → Nat
  | [] => workers
  | e :: rest => runStage (stageStep workers e) rest

theorem replaceAllGo_nil (pat rep : Str) (f : Nat) :
    replaceAllGo pat rep f [] = [] := by
  cases f <;> rfl

theorem replaceAllGo_congr (pat rep : Str) : ∀ (f1 : Nat) (s : Str) (f2 : Nat),
    s.length ≤ f1 → s.length ≤ f2 →
    replaceAllGo pat rep f1 s = replaceAllGo pat rep f2 s := by
  intro f1
  induction f1 with
  | zero =>
    intro s f2 h1 _
    have hs : s = [] := List.length_eq_zero.mp (Nat.le_zero.mp h1)
    rw [hs, replaceAllGo_nil, replaceAllGo_nil]
  | succ n ih =>
    intro s f2 h1 h2
    cases s with
    | nil => rw [replaceAllGo_nil, replaceAllGo_nil]
    | cons c cs =>
      match f2, h2 with
      | m + 1, h2m =>
        show (if pat ≠ [] ∧ isPre pat (c :: cs) then
            rep ++ replaceAllGo pat rep n (cs.drop (pat.length - 1))
          else c :: replaceAllGo pat rep n cs) =
          (if pat ≠ [] ∧ isPre pat (c :: cs) then
            rep ++ replaceAllGo pat rep m (cs.drop (pat.length - 1))
          else c :: replaceAllGo pat rep m cs)
        have hcs1 : cs.length ≤ n := by
          have := h1
          simp only [List.length_cons] at this
          omega
        have hcs2 : cs.length ≤ m := by
          have := h2m
          simp only [List.length_cons] at this
          omega
        have hd1 : (cs.drop (pat.length - 1)).length ≤ n := by
          have := List.length_drop (pat.length - 1) cs
          omega
        have hd2 : (cs.drop (pat.length - 1)).length ≤ m := by
          have := List.length_drop (pat.length - 1) cs
          omega
        by_cases h : pat ≠ [] ∧ isPre pat (c :: cs)
        · rw [if_pos h, if_pos h, ih (cs.drop (pat.length - 1)) m hd1 hd2]
        · rw [if_neg h, if_neg h, ih cs m hcs1 hcs2]

/-- Unfolding equation of `replaceAll` at a cons cell. -/
theorem replaceAll_cons (pat rep : Str) (c : Char) (cs : Str) :
    replaceAll pat rep (c :: cs) =
      if pat ≠ [] ∧ isPre pat (c :: cs) then
        rep ++ replaceAll pat rep (cs.drop (pat.length - 1))
      else
        c :: replaceAll pat rep cs := by
  show replaceAllGo pat rep (cs.length + 1) (c :: cs) = _
  show (if pat ≠ [] ∧ isPre pat (c :: cs) then
      rep ++ replaceAllGo pat rep cs.length (cs.drop (pat.length - 1))
    else c :: replaceAllGo pat rep cs.length cs) = _
  have hd : (cs.drop (pat.length - 1)).length ≤ cs.length := by
    have := List.length_drop (pat.length - 1) cs
    omega
  by_cases h : pat ≠ [] ∧ isPre pat (c :: cs)
  · rw [if_pos h, if_pos h,
      replaceAllGo_congr pat rep cs.length (cs.drop (pat.length - 1))
        (cs.drop (pat.length - 1)).length hd (Nat.le_refl _)]
    rfl
  · rw [if_neg h, if_neg h]
    rfl

theorem isPre_nil (s : Str) : isPre [] s = true := by
  cases s <;> rfl

theorem isPre_append (p s : Str) : isPre p (p ++ s) = true := by
  induction p with
  | nil => exact isPre_nil s
  | cons a as ih => simp [isPre, ih]

theorem isPre_cons_ne {a b : Char} (as bs : Str) (h : a ≠ b) :
    isPre (a :: as) (b :: bs) = false := by
  simp [isPre, h]

theorem replaceAll_nil (pat rep : Str) : replaceAll pat rep [] = [] := rfl

/-- Replacing at a position where the pattern matches consumes the pattern. -/
theorem replaceAll_match (pat rep s : Str) (hne : pat ≠ []) :
    replaceAll pat rep (pat ++ s) = rep ++ replaceAll pat rep s := by
  match pat, hne with
  | p :: ps, _ =>
    rw [List.cons_append, replaceAll_cons]
    have hpre : isPre (p :: ps) (p :: (ps ++ s)) = true := isPre_append (p :: ps) s
    rw [if_pos ⟨List.cons_ne_nil p ps, hpre⟩]
    have hdrop : (ps ++ s).drop ((p :: ps).length - 1) = s := by
      simp [List.drop_left]
    rw [hdrop]

/-- A segment whose characters all differ from the head of the pattern is
copied verbatim. -/
theorem replaceAll_skip (pat rep m s : Str) (p0 : Char) (ps : Str)
    (hpat : pat = p0 :: ps) (hm : ∀ c ∈ m, c ≠ p0) :
    replaceAll pat rep (m ++ s) = m ++ replaceAll pat rep s := by
  induction m with
  | nil => simp
  | cons c cs ih =>
    have hc : c ≠ p0 := hm c (List.mem_cons_self c cs)
    have hcs : ∀ x ∈ cs, x ≠ p0 := fun x hx => hm x (List.mem_cons_of_mem c hx)
    rw [List.cons_append, replaceAll_cons]
    have hpre : isPre pat (c :: (cs ++ s)) = false := by
      rw [hpat]
      exact isPre_cons_ne ps (cs ++ s) (fun h => hc h.symm)
    rw [if_neg (by simp [hpre])]
    rw [ih hcs, List.cons_append]

theorem isPre_cons_eq (a : Char) (as bs : Str) :
    isPre (a :: as) (a :: bs) = isPre as bs := by
  simp [isPre]

theorem replaceAll_cons_neg (pat rep : Str) (c : Char) (cs : Str)
    (h : isPre pat (c :: cs) = false) :
    replaceAll pat rep (c :: cs) = c :: replaceAll pat rep cs := by
  rw [replaceAll_cons, if_neg]
  simp [h]

theorem namePre_false (P : Str) : ∀ (Q s : Str),
    (∀ c ∈ P, c ≠ rbrace) → (∀ c ∈ Q, c ≠ rbrace) → P ≠ Q →
    isPre (P ++ [rbrace, rbrace]) (Q ++ rbrace :: rbrace :: s) = false := by
  induction P with
  | nil =>
    intro Q s _ hQ hne
    match Q, hne with
    | qh :: qt, _ =>
      have hq : qh ≠ rbrace := (hQ qh (List.mem_cons_self qh qt))
      rw [List.nil_append, List.cons_append]
      exact isPre_cons_ne _ _ (fun h => hq h.symm)
  | cons ph pt ih =>
    intro Q s hP hne
    match Q with
    | [] =>
      intro _
      have hp : ph ≠ rbrace := hP ph (List.mem_cons_self ph pt)
      rw [List.cons_append, List.nil_append]
      exact isPre_cons_ne _ _ hp
    | qh :: qt =>
      intro hneq
      by_cases hph : ph = qh
      · subst hph
        have hpt : pt ≠ qt := by
          intro h
          exact hneq (by rw [h])
        rw [List.cons_append, List.cons_append, isPre_cons_eq]
        exact ih qt s (fun c hc => hP c (List.mem_cons_of_mem ph hc))
          (fun c hc => hne c (List.mem_cons_of_mem ph hc)) hpt
      · rw [List.cons_append, List.cons_append]
        exact isPre_cons_ne _ _ hph

theorem lbrace_ne_rbrace : lbrace ≠ rbrace := by decide

/-- A placeholder token for a different name is copied verbatim by the
replacement pass. -/
theorem replaceAll_skip_token (P Q rep s : Str)
    (hP : nameOK P) (hQ : nameOK Q) (hne : Q ≠ P) :
    replaceAll (wrap P) rep (wrap Q ++ s) = wrap Q ++ replaceAll (wrap P) rep s := by
  obtain ⟨hQne, hQfree⟩ := hQ
  obtain ⟨hPne, hPfree⟩ := hP
  have hshape : wrap Q ++ s = lbrace :: lbrace :: ((Q ++ [rbrace, rbrace]) ++ s) := by
    simp [wrap]
  have hT : (Q ++ [rbrace, rbrace]) ++ s = Q ++ rbrace :: rbrace :: s := by
    rw [List.append_assoc]
    rfl
  have step1 : isPre (wrap P) (lbrace :: lbrace :: ((Q ++ [rbrace, rbrace]) ++ s)) = false := by
    show isPre (lbrace :: lbrace :: (P ++ [rbrace, rbrace])) _ = false
    rw [isPre_cons_eq, isPre_cons_eq, hT]
    exact namePre_false P Q s (fun c hc => (hPfree c hc).2) (fun c hc => (hQfree c hc).2)
      (fun h => hne h.symm)
  have step2 : isPre (wrap P) (lbrace :: ((Q ++ [rbrace, rbrace]) ++ s)) = false := by
    show isPre (lbrace :: (lbrace :: (P ++ [rbrace, rbrace]))) _ = false
    rw [isPre_cons_eq]
    match Q, hQne with
    | qh :: qt, _ =>
      have hq : qh ≠ lbrace := (hQfree qh (List.mem_cons_self qh qt)).1
      rw [List.cons_append, List.cons_append]
      exact isPre_cons_ne _ _ (fun h => hq h.symm)
  have step3 : replaceAll (wrap P) rep ((Q ++ [rbrace, rbrace]) ++ s) =
      (Q ++ [rbrace, rbrace]) ++ replaceAll (wrap P) rep s := by
    refine replaceAll_skip (wrap P) rep (Q ++ [rbrace, rbrace]) s lbrace
      (lbrace :: (P ++ [rbrace, rbrace])) rfl ?_
    intro c hc
    rcases List.mem_append.mp hc with h | h
    · exact (hQfree c h).1
    · have hcr : c = rbrace := by simpa using h
      rw [hcr]
      exact fun h => lbrace_ne_rbrace h.symm
  rw [hshape, replaceAll_cons_neg _ _ _ _ step1, replaceAll_cons_neg _ _ _ _ step2, step3]
  simp [wrap]

/-- A placeholder token for the pattern name itself is substituted. -/
theorem replaceAll_hit_token (P rep s : Str) :
    replaceAll (wrap P) rep (wrap P ++ s) = rep ++ replaceAll (wrap P) rep s :=
  replaceAll_match (wrap P) rep s (by simp [wrap])

theorem joinSegs_append (A B : List Seg) :
    joinSegs (A ++ B) = joinSegs A ++ joinSegs B := by
  induction A with
  | nil => simp [joinSegs]
  | cons sg rest ih => simp [joinSegs, ih]

theorem mem_joinSegs {c : Char} : ∀ {segs : List Seg},
    c ∈ joinSegs segs → ∃ sg ∈ segs, c ∈ sg.text := by
  intro segs h
  induction segs with
  | nil => simp [joinSegs] at h
  | cons sg rest ih =>
    rw [joinSegs, List.mem_append] at h
    rcases h with h | h
    · exact ⟨sg, List.mem_cons_self sg rest, h⟩
    · obtain ⟨sg2, hm, hc⟩ := ih h
      exact ⟨sg2, List.mem_cons_of_mem sg hm, hc⟩

/-- One replacement pass over a well-formed template acts segmentwise. -/
theorem replaceAll_joinSegs (P rep : Str) (hP : nameOK P) :
    ∀ segs : List Seg, (∀ sg ∈ segs, SegOK sg) →
    replaceAll (wrap P) rep (joinSegs segs) = joinSegs (segs.map (passSeg P rep)) := by
  intro segs hwf
  induction segs with
  | nil => simp [joinSegs, replaceAll_nil]
  | cons sg rest ih =>
    have hsg : SegOK sg := hwf sg (List.mem_cons_self sg rest)
    have hrest : ∀ s2 ∈ rest, SegOK s2 := fun s2 h2 => hwf s2 (List.mem_cons_of_mem sg h2)
    cases sg with
    | lit s =>
      have hfree : braceFreeS s := hsg
      rw [joinSegs, Seg.text]
      rw [replaceAll_skip (wrap P) rep s (joinSegs rest) lbrace
        (lbrace :: (P ++ [rbrace, rbrace])) rfl (fun c hc => (hfree c hc).1)]
      rw [ih hrest, List.map_cons, joinSegs]
      rfl
    | ph q =>
      have hq : nameOK q := hsg
      rw [joinSegs, Seg.text]
      by_cases hqP : q = P
      · subst hqP
        rw [replaceAll_hit_token, ih hrest, List.map_cons, joinSegs]
        simp [passSeg, Seg.text]
      · rw [replaceAll_skip_token P q rep (joinSegs rest) hP hq hqP]
        rw [ih hrest, List.map_cons, joinSegs]
        simp [passSeg, hqP, Seg.text]

theorem passSeg_SegOK (P rep : Str) (hrep : braceFreeS rep) (sg : Seg)
    (h : SegOK sg) : SegOK (passSeg P rep sg) := by
  cases sg with
  | lit s => exact h
  | ph q =>
    rw [passSeg]
    by_cases hq : q = P
    · simpa [hq] using hrep
    · simpa [hq] using h

theorem applyPasses_joinSegs : ∀ (ps : List (Str × Str)) (segs : List Seg),
    (∀ pr ∈ ps, nameOK pr.1 ∧ braceFreeS pr.2) → (∀ sg ∈ segs, SegOK sg) →
    applyPasses ps (joinSegs segs) = joinSegs (passesSegs ps segs) := by
  intro ps
  induction ps with
  | nil => intro segs _ _; rfl
  | cons pr ps ih =>
    intro segs hps hwf
    have hpr : nameOK pr.1 ∧ braceFreeS pr.2 := hps pr (List.mem_cons_self pr ps)
    have hps2 : ∀ p2 ∈ ps, nameOK p2.1 ∧ braceFreeS p2.2 :=
      fun p2 h2 => hps p2 (List.mem_cons_of_mem pr h2)
    show applyPasses ps (replaceAll (wrap pr.1) pr.2 (joinSegs segs)) = _
    rw [replaceAll_joinSegs pr.1 pr.2 hpr.1 segs hwf]
    rw [ih (segs.map (passSeg pr.1 pr.2)) hps2 ?_]
    · rfl
    · intro sg hsg
      obtain ⟨sg0, hm, rfl⟩ := List.mem_map.mp hsg
      exact passSeg_SegOK pr.1 pr.2 hpr.2 sg0 (hwf sg0 hm)

theorem passesSegs_map (ps : List (Str × Str)) : ∀ segs : List Seg,
    passesSegs ps segs = segs.map (fun sg => ps.foldl (fun s pr => passSeg pr.1 pr.2 s) sg) := by
  induction ps with
  | nil => intro segs; simp [passesSegs]
  | cons pr ps ih =>
    intro segs
    show passesSegs ps (segs.map (passSeg pr.1 pr.2)) = _
    rw [ih (segs.map (passSeg pr.1 pr.2)), List.map_map]
    rfl

/-- C7: running the report-stage rendering twice against the same unchanged
artifact and template produces byte-identical rendered output — the
substitution is a deterministic function of its file inputs, and a render
run leaves the artifact and template untouched. -/
theorem c7_render_idempotent (fs : RenderFS) :
    runReportRender (runReportRender fs) = runReportRender fs := by
  unfold runReportRender
  rcases fs with ⟨a, t, r⟩
  cases a with
  | none => rfl
  | some j =>
    cases t with
    | none => cases j <;> rfl
    | some tt =>
      cases j with
      | obj fields =>
        cases hg : generate_html_from_template fields tt with
        | ok h => simp [hg]
        | error e => simp [hg]
      | str s => rfl
      | num n => rfl
      | bool b => rfl
      | null => rfl
      | arr xs => rfl

theorem statsPart6 : statsPart fields6 = .ok card3IOCs := by
  show Except.ok (card3IOCs ++ []) = _
  rw [List.append_nil]

theorem timelinePart6 : timelinePart fields6 = .ok [] := rfl

theorem objectivesPart6 : objectivesPart fields6 = .ok [] := rfl

theorem gen6 (t : Str) :
    generate_html_from_template fields6 t = .ok (applyPasses passList6 t) := by
  have hL1 : simpleKeys.map (fun k => (k, pyStr (getOr fields6 k (JValue.str [])))) =
      [("INCIDENT_TITLE".data, ([] : Str)), ("INCIDENT_DATES".data, []),
       ("EXECUTIVE_SUMMARY".data, "x".data), ("TIMELINE_DESCRIPTION".data, []),
       ("FORENSIC_CONCLUSION".data, []), ("REPORT_FOOTER".data, [])] := by decide
  have hL2 : htmlContentKeys.map (fun k => (k, pyStr (getOr fields6 k (JValue.str [])))) =
      [("ENTRY_POINTS_CONTENT".data, ([] : Str)), ("IOCS_CONTENT".data, []),
       ("RECOMMENDATIONS_CONTENT".data, [])] := by decide
  simp only [generate_html_from_template, hL1, hL2, statsPart6, timelinePart6, objectivesPart6,
    applyPasses, passList6, List.foldl_cons, List.foldl_nil]

theorem handledNames_nameOK : ∀ q ∈ handledNames, nameOK q := by decide

theorem passList6_ok : ∀ pr ∈ passList6, nameOK pr.1 ∧ braceFreeS pr.2 := by decide

theorem handledSeg_SegOK (sg : Seg) (h : handledSeg sg) : SegOK sg := by
  cases sg with
  | lit s => exact h
  | ph q => exact handledNames_nameOK q h

theorem passes6_lit (s : Str) :
    passList6.foldl (fun sg pr => passSeg pr.1 pr.2 sg) (Seg.lit s) = Seg.lit s := rfl

theorem passes6_ph (q : Str) (hq : q ∈ handledNames) :
    passList6.foldl (fun sg pr => passSeg pr.1 pr.2 sg) (Seg.ph q) = rSeg6 (Seg.ph q) := by
  simp only [handledNames, simpleKeys, htmlContentKeys, List.map_cons, List.map_nil,
    List.cons_append, List.nil_append, List.mem_cons, List.not_mem_nil, or_false] at hq
  rcases hq with rfl | rfl | rfl | rfl | rfl | rfl | rfl | rfl | rfl | rfl | rfl | rfl <;> rfl

theorem passesSegs6 (segs : List Seg) (h : ∀ sg ∈ segs, handledSeg sg) :
    passesSegs passList6 segs = segs.map rSeg6 := by
  rw [passesSegs_map]
  refine List.map_congr_left ?_
  intro sg hsg
  cases sg with
  | lit s => exact passes6_lit s
  | ph q => exact passes6_ph q (h (Seg.ph q) hsg)

theorem rSeg6_braceFree (sg : Seg) (h : handledSeg sg) :
    braceFreeS (rSeg6 sg).text := by
  cases sg with
  | lit s => exact h
  | ph q =>
    have hq : q ∈ handledNames := h
    simp only [handledNames, simpleKeys, htmlContentKeys, List.map_cons, List.map_nil,
      List.cons_append, List.nil_append, List.mem_cons, List.not_mem_nil, or_false] at hq
    rcases hq with rfl | rfl | rfl | rfl | rfl | rfl | rfl | rfl | rfl | rfl | rfl | rfl <;> decide

theorem braceFreeS_append {a b : Str} (ha : braceFreeS a) (hb : braceFreeS b) :
    braceFreeS (a ++ b) := by
  intro c hc
  rcases List.mem_append.mp hc with h | h
  · exact ha c h
  · exact hb c h

theorem card3IOCs_braceFree : braceFreeS card3IOCs := by decide

theorem braceFreeS_joinSegs_map (L : List Seg) (h : ∀ sg ∈ L, handledSeg sg) :
    braceFreeS (joinSegs (L.map rSeg6)) := by
  intro c hc
  obtain ⟨sg2, hm, hc2⟩ := mem_joinSegs hc
  obtain ⟨sg0, hm0, rfl⟩ := List.mem_map.mp hm
  exact rSeg6_braceFree sg0 (h sg0 hm0) c hc2

/-- C6 (amended): for the artifact `{EXECUTIVE_SUMMARY: "x",
STATISTICS_CARDS: [{number: 3, label: "IOCs"}]}` and any template built from
brace-free literal runs and handled placeholders that contains exactly one
occurrence of the `STATISTICS_CARDS` token, the substitution step replaces
that token by exactly one generated stat-card element with number 3 and
label IOCs, and the rendered output contains no brace characters at all —
in particular no unresolved placeholder token.  (Tokens outside the handled
set would survive verbatim, which is what the counterexample exhibits.) -/
theorem c6_substitution_amended (A B : List Seg)
    (hA : ∀ sg ∈ A, handledSeg sg) (hB : ∀ sg ∈ B, handledSeg sg)
    (_hAs : Seg.ph "STATISTICS_CARDS".data ∉ A)
    (_hBs : Seg.ph "STATISTICS_CARDS".data ∉ B) :
    generate_html_from_template fields6
        (joinSegs (A ++ Seg.ph "STATISTICS_CARDS".data :: B)) =
      .ok (joinSegs (A.map rSeg6) ++ (card3IOCs ++ joinSegs (B.map rSeg6))) ∧
    occurrences "<div class=\"stat-card\">".data card3IOCs = 1 ∧
    braceFreeS (joinSegs (A.map rSeg6) ++ (card3IOCs ++ joinSegs (B.map rSeg6))) := by
  have hall : ∀ sg ∈ A ++ Seg.ph "STATISTICS_CARDS".data :: B, handledSeg sg := by
    intro sg hsg
    rcases List.mem_append.mp hsg with h | h
    · exact hA sg h
    · rcases List.mem_cons.mp h with rfl | h2
      · decide
      · exact hB sg h2
  have hok : ∀ sg ∈ A ++ Seg.ph "STATISTICS_CARDS".data :: B, SegOK sg :=
    fun sg h => handledSeg_SegOK sg (hall sg h)
  have h2 := applyPasses_joinSegs passList6 (A ++ Seg.ph "STATISTICS_CARDS".data :: B)
    passList6_ok hok
  have h3 := passesSegs6 (A ++ Seg.ph "STATISTICS_CARDS".data :: B) hall
  have h4 : (A ++ Seg.ph "STATISTICS_CARDS".data :: B).map rSeg6 =
      A.map rSeg6 ++ Seg.lit card3IOCs :: B.map rSeg6 := by
    rw [List.map_append, List.map_cons]
    rfl
  have h5 : joinSegs (A.map rSeg6 ++ Seg.lit card3IOCs :: B.map rSeg6) =
      joinSegs (A.map rSeg6) ++ (card3IOCs ++ joinSegs (B.map rSeg6)) := by
    rw [joinSegs_append]
    rfl
  refine ⟨?_, by decide, ?_⟩
  · rw [gen6, h2, h3, h4, h5]
  · exact braceFreeS_append (braceFreeS_joinSegs_map A hA)
      (braceFreeS_append card3IOCs_braceFree (braceFreeS_joinSegs_map B hB))

/-- Witness for the amended C6 statement at a concrete template
`<body>{{STATISTICS_CARDS}}</body>`. -/
theorem c6_substitution_amended_witness :
    generate_html_from_template fields6
        (joinSegs ([Seg.lit "<body>".data] ++
          Seg.ph "STATISTICS_CARDS".data :: [Seg.lit "</body>".data])) =
      .ok (joinSegs ([Seg.lit "<body>".data].map rSeg6) ++
        (card3IOCs ++ joinSegs ([Seg.lit "</body>".data].map rSeg6))) ∧
    occurrences "<div class=\"stat-card\">".data card3IOCs = 1 ∧
    braceFreeS (joinSegs ([Seg.lit "<body>".data].map rSeg6) ++
      (card3IOCs ++ joinSegs ([Seg.lit "</body>".data].map rSeg6))) :=
  c6_substitution_amended [Seg.lit "<body>".data] [Seg.lit "</body>".data]
    (by decide) (by decide) (by decide) (by decide)

/-- C6 (counterexample): the claim quantifies over ANY template containing
`\x7b\x7bSTATISTICS_CARDS\x7d\x7d` and asserts no unresolved `\x7b\x7b...\x7d\x7d`
token remains; the template `\x7b\x7bSTATISTICS_CARDS\x7d\x7d\x7b\x7bFOO\x7d\x7d`
contains that placeholder, yet the rendered output still contains the
unresolved token `\x7b\x7bFOO\x7d\x7d`. -/
theorem c6_counterexample :
    occurrences (wrap "STATISTICS_CARDS".data) tBad6 = 1 ∧
    generate_html_from_template fields6 tBad6 = .ok (card3IOCs ++ wrap "FOO".data) ∧
    occurrences [lbrace, lbrace] (card3IOCs ++ wrap "FOO".data) = 1 := by
  refine ⟨by decide, ?_, by decide⟩
  rw [gen6]
  have hv : applyPasses passList6 tBad6 = card3IOCs ++ wrap "FOO".data := by decide
  rw [hv]

/-- C2 (counterexample): the claim says Valid is returned exactly when the
summary field is present under its canonical key EXECUTIVE_SUMMARY, but the
code also accepts the lowercase variant: a record holding only
`executive_summary` classifies as Valid although the canonical key is
absent. -/
theorem c2_counterexample :
    validate (JValue.obj [("executive_summary".data, JValue.str "x".data)]) = Validity.Valid ∧
    hasKey [("executive_summary".data, JValue.str "x".data)] "EXECUTIVE_SUMMARY".data = false := by
  constructor
  · rfl
  · decide

/-- C2 (amended): validation returns Valid exactly when the record is a
structured object carrying the summary under EXECUTIVE_SUMMARY or its
lowercase variant executive_summary; ValidLegacy exactly when it is an
object with the degraded `analysis` field and no summary key; and an
Invalid saved record makes the worker's next write take the fallback path
that parses and re-wraps the engine's textual return value. -/
theorem validate_obj_cases (fs : List (Str × JValue)) :
    (validate (JValue.obj fs) = Validity.Valid ↔
      (hasKey fs "EXECUTIVE_SUMMARY".data = true ∨ hasKey fs "executive_summary".data = true)) ∧
    (validate (JValue.obj fs) = Validity.ValidLegacy ↔
      (hasKey fs "analysis".data = true ∧ hasKey fs "EXECUTIVE_SUMMARY".data = false ∧
       hasKey fs "executive_summary".data = false)) ∧
    (validate (JValue.obj fs) = Validity.Invalid ↔
      (hasKey fs "analysis".data = false ∧ hasKey fs "EXECUTIVE_SUMMARY".data = false ∧
       hasKey fs "executive_summary".data = false)) := by
  cases h1 : hasKey fs "EXECUTIVE_SUMMARY".data <;>
    cases h2 : hasKey fs "executive_summary".data <;>
    cases h3 : hasKey fs "analysis".data <;>
    simp [validate, h1, h2, h3]

theorem c2_validate_amended (j : JValue) :
    (validate j = Validity.Valid ↔ ∃ fs, j = JValue.obj fs ∧
      (hasKey fs "EXECUTIVE_SUMMARY".data = true ∨
       hasKey fs "executive_summary".data = true)) ∧
    (validate j = Validity.ValidLegacy ↔ ∃ fs, j = JValue.obj fs ∧
      hasKey fs "analysis".data = true ∧
      hasKey fs "EXECUTIVE_SUMMARY".data = false ∧
      hasKey fs "executive_summary".data = false) ∧
    (∀ finalParsed finalRaw ts fp, validate j = Validity.Invalid →
      reconcileArtifactWrite (some j) finalParsed finalRaw ts fp =
        fallbackFromOutput finalParsed finalRaw ts fp) := by
  cases j with
  | obj fs =>
    obtain ⟨hV, hL, hI⟩ := validate_obj_cases fs
    refine ⟨?_, ?_, ?_⟩
    · constructor
      · intro hv
        exact ⟨fs, rfl, hV.mp hv⟩
      · intro ⟨fs2, heq, hk⟩
        cases heq
        exact hV.mpr hk
    · constructor
      · intro hv
        exact ⟨fs, rfl, hL.mp hv⟩
      · intro ⟨fs2, heq, hk⟩
        cases heq
        exact hL.mpr hk
    · intro finalParsed finalRaw ts fp hv
      obtain ⟨ha, he1, he2⟩ := hI.mp hv
      show (if (hasKey fs "EXECUTIVE_SUMMARY".data || hasKey fs "executive_summary".data) = true
          then JValue.obj (withRunMetadata fs ts fp)
          else if hasKey fs "analysis".data = true then JValue.obj (withRunMetadata fs ts fp)
          else fallbackFromOutput finalParsed finalRaw ts fp) = _
      rw [he1, he2, ha]
      rfl
  | str s =>
    refine ⟨?_, ?_, fun _ _ _ _ _ => rfl⟩ <;>
      · constructor
        · intro hv
          cases hv
        · intro ⟨fs2, heq, _⟩
          cases heq
  | num n =>
    refine ⟨?_, ?_, fun _ _ _ _ _ => rfl⟩ <;>
      · constructor
        · intro hv
          cases hv
        · intro ⟨fs2, heq, _⟩
          cases heq
  | bool b =>
    refine ⟨?_, ?_, fun _ _ _ _ _ => rfl⟩ <;>
      · constructor
        · intro hv
          cases hv
        · intro ⟨fs2, heq, _⟩
          cases heq
  | null =>
    refine ⟨?_, ?_, fun _ _ _ _ _ => rfl⟩ <;>
      · constructor
        · intro hv
          cases hv
        · intro ⟨fs2, heq, _⟩
          cases heq
  | arr xs =>
    refine ⟨?_, ?_, fun _ _ _ _ _ => rfl⟩ <;>
      · constructor
        · intro hv
          cases hv
        · intro ⟨fs2, heq, _⟩
          cases heq

/-- Witness for the amended C2 statement: a legacy record classifies
ValidLegacy, and an empty object (Invalid) routes the write through the
fallback. -/
theorem c2_validate_amended_witness :
    validate (JValue.obj [("analysis".data, JValue.str "t".data)]) = Validity.ValidLegacy ∧
    reconcileArtifactWrite (some (JValue.obj [])) none "raw".data "ts".data "fp".data =
      fallbackFromOutput none "raw".data "ts".data "fp".data :=
  ⟨((c2_validate_amended (JValue.obj [("analysis".data, JValue.str "t".data)])).2.1).mpr
      ⟨_, rfl, by decide, by decide, by decide⟩,
   ((c2_validate_amended (JValue.obj [])).2.2) none "raw".data "ts".data "fp".data (by rfl)⟩

/-- C9: both stage-start resets clear the error and warning sequences and
discard the previous progress text (overwriting it with the stage's fixed
starting message), while the report_path field from a prior completed run is
left unchanged until a new result overwrites it. -/
theorem c9_reset_preserves_result_path (st : StatusRec) :
    (resetForAnalysis st).errors = [] ∧ (resetForAnalysis st).warnings = [] ∧
    (resetForAnalysis st).progress = "Starting DFIR analysis...".data ∧
    (resetForAnalysis st).report_path = st.report_path ∧
    (resetForReport st).errors = [] ∧ (resetForReport st).warnings = [] ∧
    (resetForReport st).progress = "Starting report generation...".data ∧
    (resetForReport st).report_path = st.report_path :=
  ⟨rfl, rfl, rfl, rfl, rfl, rfl, rfl, rfl⟩

/-- C4 (counterexample): with the analysis worker exited (crash between the
final status writes) and current_step = DFIR Completed, the status read does
NOT reconcile — reconciliation only fires when current_step equals the stage
label — so the observer sees running = true after worker exit, and the
reported step is not a terminal Error/Completed. -/
theorem c4_counterexample :
    (statusEndpoint (some stuckShared) initialStatus true false false false).running = true ∧
    (statusEndpoint (some stuckShared) initialStatus true false false false).current_step =
      "DFIR Completed".data ∧
    "DFIR Completed".data ≠ "Error".data ∧ "DFIR Completed".data ≠ "Completed".data := by
  refine ⟨by decide, by decide, by decide, by decide⟩

/-- C4 (amended): the status read reconciles the running flag exactly when
the recorded current_step equals the label of the stage whose worker has
exited; in those states the returned running flag is false — though
current_step itself may remain the non-terminal stage label after a crash,
and a crash that leaves current_step outside both stage labels escapes
reconciliation entirely (the counterexample). -/
theorem c4_status_reconcile_amended (s localSt : StatusRec) (aS aA rS rA : Bool)
    (h : (aS = true ∧ aA = false ∧ s.current_step = "DFIR Analysis".data) ∨
         (rS = true ∧ rA = false ∧ s.current_step = "Report Generation".data)) :
    (statusEndpoint (some s) localSt aS aA rS rA).running = false := by
  show (reconcileReport (reconcileAnalysis s aS aA) rS rA).running = false
  rcases h with ⟨h1, h2, h3⟩ | ⟨h1, h2, h3⟩
  · have e1 : reconcileAnalysis s aS aA = { s with running := false } := by
      unfold reconcileAnalysis
      rw [if_pos ⟨h1, h2, h3⟩]
    rw [e1]
    unfold reconcileReport
    rw [if_neg]
    intro ⟨_, _, hc⟩
    have hc2 : s.current_step = "Report Generation".data := hc
    rw [h3] at hc2
    exact absurd hc2 (by decide)
  · have e1 : reconcileAnalysis s aS aA = s := by
      unfold reconcileAnalysis
      rw [if_neg]
      intro ⟨_, _, hc⟩
      rw [h3] at hc
      exact absurd hc (by decide)
    rw [e1]
    unfold reconcileReport
    rw [if_pos ⟨h1, h2, h3⟩]

/-- Witness for the amended C4 statement: a dead analysis worker with
current_step still at the stage label is reported as not running. -/
theorem c4_status_reconcile_amended_witness :
    (statusEndpoint (some (resetForAnalysis initialStatus)) initialStatus
      true false false false).running = false :=
  c4_status_reconcile_amended (resetForAnalysis initialStatus) initialStatus
    true false false false (Or.inl ⟨rfl, rfl, rfl⟩)

/-- C3 (counterexample): on a fresh server (no manager, no shared status
dict, no prior report process) a report-start request with the artifact file
missing is NOT rejected — the route skips the artifact check and spawns a
worker, contradicting the claim that no worker is spawned. -/
theorem c3_counterexample :
    generate_report_route false false none false = RouteOutcome.spawned := by decide

/-- C3 (amended): when the shared status record exists and does not flag the
analysis as ready, a report-start request with the artifact file missing is
rejected immediately with the analysis-not-found error and no worker is
spawned; on the remaining paths (fresh server state, or ready flag set) a
worker IS spawned, and that worker records the same analysis-not-found
failure — error appended, current_step Error, running false — and returns
before invoking the engine. -/
theorem c3_report_start_amended (s s2 st : StatusRec) (mg mg2 : Bool) (env : DirEnv)
    (hready : s.dfir_analysis_ready = false)
    (hready2 : s2.dfir_analysis_ready = true)
    (henv : env.mkdirLogsFails = false ∧ env.mkdirReportsFails = false) :
    generate_report_route false mg (some s) false = RouteOutcome.rejectedNotFound ∧
    generate_report_route false false none false = RouteOutcome.spawned ∧
    generate_report_route false mg2 (some s2) false = RouteOutcome.spawned ∧
    (run_report_generation_worker env false st).1.errors =
      ["DFIR analysis not found. Please run the analysis first.".data] ∧
    (run_report_generation_worker env false st).1.current_step = "Error".data ∧
    (run_report_generation_worker env false st).1.running = false ∧
    (run_report_generation_worker env false st).2 = false := by
  have hsetup : directorySetup env st = (st, true) := by
    unfold directorySetup
    rw [if_neg]
    intro h
    rcases h with h | h
    · rw [henv.1] at h
      cases h
    · rw [henv.2] at h
      cases h
  have hroute : generate_report_route false mg (some s) false =
      RouteOutcome.rejectedNotFound := by
    show (if s.dfir_analysis_ready = false ∧ false = false then RouteOutcome.rejectedNotFound
      else RouteOutcome.spawned) = RouteOutcome.rejectedNotFound
    rw [if_pos ⟨hready, rfl⟩]
  have hroute2 : generate_report_route false mg2 (some s2) false = RouteOutcome.spawned := by
    show (if s2.dfir_analysis_ready = false ∧ false = false then RouteOutcome.rejectedNotFound
      else RouteOutcome.spawned) = RouteOutcome.spawned
    rw [if_neg]
    intro ⟨h, _⟩
    rw [hready2] at h
    cases h
  have hworker : run_report_generation_worker env false st =
      ({ st with
          running := false,
          errors := ["DFIR analysis not found. Please run the analysis first.".data],
          warnings := [],
          progress := "Error: Analysis not found".data,
          current_step := "Error".data }, false) := by
    unfold run_report_generation_worker
    rw [hsetup]
    rfl
  refine ⟨hroute, rfl, hroute2, ?_, ?_, ?_, ?_⟩ <;> rw [hworker]

/-- Witness for the amended C3 statement on concrete inputs: a not-ready
shared record rejects, the fresh-server path spawns, a ready-flagged shared
record spawns, and the spawned worker records the analysis-not-found
failure without reaching the engine. -/
theorem c3_report_start_amended_witness :
    generate_report_route false true (some initialStatus) false =
      RouteOutcome.rejectedNotFound ∧
    generate_report_route false false none false = RouteOutcome.spawned ∧
    generate_report_route false true (some stuckShared) false = RouteOutcome.spawned ∧
    (run_report_generation_worker ⟨false, false, false, false⟩ false initialStatus).1.errors =
      ["DFIR analysis not found. Please run the analysis first.".data] ∧
    (run_report_generation_worker ⟨false, false, false, false⟩ false initialStatus).1.current_step =
      "Error".data ∧
    (run_report_generation_worker ⟨false, false, false, false⟩ false initialStatus).1.running = false ∧
    (run_report_generation_worker ⟨false, false, false, false⟩ false initialStatus).2 = false :=
  c3_report_start_amended initialStatus stuckShared initialStatus true true
    ⟨false, false, false, false⟩ rfl rfl ⟨rfl, rfl⟩

/-- C8 (counterexample): when chmod fails the setup step records NO warning —
the inner except swallows the failure with a bare pass — so the claim that a
chmod failure produces a warning is false (it is, however, not fatal). -/
theorem c8_counterexample :
    (directorySetup envChmodFail initialStatus).1.warnings = [] ∧
    (directorySetup envChmodFail initialStatus).1 = initialStatus ∧
    (directorySetup envChmodFail initialStatus).2 = true := by
  refine ⟨by decide, by decide, by decide⟩

/-- C8 (amended): in every stage worker's directory-setup step, failure to
relax directory permissions is silently ignored — no warning is recorded —
and is not fatal, while failure to create a required directory is fatal: an
error is recorded, running is cleared, and the worker returns without
invoking the engine. -/
theorem c8_dir_setup_amended (env : DirEnv) (st : StatusRec) (fileExists : Bool) :
    (env.mkdirLogsFails = false → env.mkdirReportsFails = false →
      directorySetup env st = (st, true)) ∧
    (env.mkdirLogsFails = true ∨ env.mkdirReportsFails = true →
      (directorySetup env st).2 = false ∧
      (directorySetup env st).1.running = false ∧
      (directorySetup env st).1.errors = st.errors ++ ["Error creating directories".data] ∧
      (directorySetup env st).1.warnings = st.warnings ∧
      (run_report_generation_worker env fileExists st).2 = false) := by
  constructor
  · intro h1 h2
    unfold directorySetup
    rw [if_neg]
    intro h
    rcases h with h | h
    · rw [h1] at h
      cases h
    · rw [h2] at h
      cases h
  · intro h
    have hsetup : directorySetup env st =
        ({ st with
            errors := st.errors ++ ["Error creating directories".data],
            progress := "Error: Error creating directories".data,
            running := false }, false) := by
      unfold directorySetup
      rw [if_pos h]
    refine ⟨?_, ?_, ?_, ?_, ?_⟩ <;>
      first
      | (rw [hsetup])
      | (unfold run_report_generation_worker; rw [hsetup])

/-- Witness for the amended C8 statement: a chmod-only failure is non-fatal
with no state change, and an mkdir failure aborts before the engine. -/
theorem c8_dir_setup_amended_witness :
    (directorySetup ⟨true, false, false, false⟩ initialStatus).2 = false ∧
    (directorySetup ⟨true, false, false, false⟩ initialStatus).1.running = false ∧
    (directorySetup ⟨true, false, false, false⟩ initialStatus).1.errors =
      initialStatus.errors ++ ["Error creating directories".data] ∧
    (directorySetup ⟨true, false, false, false⟩ initialStatus).1.warnings =
      initialStatus.warnings ∧
    (run_report_generation_worker ⟨true, false, false, false⟩ true initialStatus).2 = false :=
  (c8_dir_setup_amended ⟨true, false, false, false⟩ initialStatus true).2 (Or.inl rfl)

/-- C10 (counterexample): the empty submitted filename contains no dot, so by
the claim it should be rejected with the invalid-file-type error; the route
rejects it earlier with the no-file-selected error instead. -/
theorem c10_counterexample :
    upload_file (some []) = UploadResult.errorResp "No file selected".data 400 ∧
    "No file selected".data ≠ "Invalid file type".data := by
  refine ⟨rfl, by decide⟩

/-- C10 (amended): a file upload is accepted iff the submitted filename
contains a dot and the substring after its last dot, lowercased, is one of
json/txt/log/csv/xml; any other NONEMPTY filename is rejected with the
invalid-file-type error, while the empty filename is rejected with the
no-file-selected error; in every rejection no file is saved. -/
theorem c10_upload_amended (fn : Str) :
    ((∃ s, upload_file (some fn) = UploadResult.saved s) ↔
      ('.' ∈ fn ∧ pyLower (afterLastDot fn) ∈ ALLOWED_EXTENSIONS)) ∧
    (fn ≠ [] → allowed_file fn = false →
      upload_file (some fn) = UploadResult.errorResp "Invalid file type".data 400) ∧
    upload_file (some []) = UploadResult.errorResp "No file selected".data 400 := by
  refine ⟨?_, ?_, rfl⟩
  · constructor
    · intro ⟨s, hs⟩
      have hs2 : (if fn = [] then UploadResult.errorResp "No file selected".data 400
          else if allowed_file fn = true then UploadResult.saved fn
          else UploadResult.errorResp "Invalid file type".data 400) =
          UploadResult.saved s := hs
      by_cases h0 : fn = []
      · rw [if_pos h0] at hs2
        cases hs2
      · rw [if_neg h0] at hs2
        by_cases ha : allowed_file fn = true
        · have hb := ha
          unfold allowed_file at hb
          rw [Bool.and_eq_true, decide_eq_true_iff, decide_eq_true_iff] at hb
          exact hb
        · rw [if_neg ha] at hs2
          cases hs2
    · intro ⟨h1, h2⟩
      have h0 : fn ≠ [] := by
        intro h
        rw [h] at h1
        cases h1
      have ha : allowed_file fn = true := by
        unfold allowed_file
        rw [Bool.and_eq_true, decide_eq_true_iff, decide_eq_true_iff]
        exact ⟨h1, h2⟩
      refine ⟨fn, ?_⟩
      show (if fn = [] then UploadResult.errorResp "No file selected".data 400
          else if allowed_file fn = true then UploadResult.saved fn
          else UploadResult.errorResp "Invalid file type".data 400) = UploadResult.saved fn
      rw [if_neg h0, if_pos ha]
  · intro h0 ha
    show (if fn = [] then UploadResult.errorResp "No file selected".data 400
        else if allowed_file fn = true then UploadResult.saved fn
        else UploadResult.errorResp "Invalid file type".data 400) =
        UploadResult.errorResp "Invalid file type".data 400
    rw [if_neg h0, if_neg (by rw [ha]; intro h; cases h)]

/-- Witness for the amended C10 statement on concrete filenames. -/
theorem c10_upload_amended_witness :
    upload_file (some "evil.exe".data) =
      UploadResult.errorResp "Invalid file type".data 400 :=
  (c10_upload_amended "evil.exe".data).2.1 (by decide) (by decide)

theorem replaceSpace_cons (c : Char) (cs : Str) :
    replaceAll [' '] ['_'] (c :: cs) =
      (if c = ' ' then '_' else c) :: replaceAll [' '] ['_'] cs := by
  rw [replaceAll_cons]
  by_cases h : c = ' '
  · have hp : isPre [' '] (c :: cs) = true := by
      rw [h]
      simp [isPre, isPre_nil]
    rw [if_pos ⟨by simp, hp⟩, if_pos h]
    rfl
  · have hp : isPre [' '] (c :: cs) = false := by
      simp only [isPre]
      rw [if_neg (fun hh => h hh.symm)]
    rw [if_neg (by simp [hp]), if_neg h]

theorem mem_replaceSpace {c : Char} : ∀ {t : Str},
    c ∈ replaceAll [' '] ['_'] t → c = '_' ∨ c ∈ t := by
  intro t
  induction t with
  | nil =>
    intro h
    rw [replaceAll_nil] at h
    cases h
  | cons a as ih =>
    intro h
    rw [replaceSpace_cons] at h
    rcases List.mem_cons.mp h with h1 | h1
    · by_cases ha : a = ' '
      · rw [if_pos ha] at h1
        exact Or.inl h1
      · rw [if_neg ha] at h1
        exact Or.inr (h1 ▸ List.mem_cons_self a as)
    · rcases ih h1 with h2 | h2
      · exact Or.inl h2
      · exact Or.inr (List.mem_cons_of_mem a h2)

theorem lookupCC_mem_values : ∀ (l : List (Char × Char)) (c v : Char),
    lookupCC l c = some v → v ∈ l.map Prod.snd := by
  intro l
  induction l with
  | nil =>
    intro c v h
    cases h
  | cons kv rest ih =>
    intro c v h
    obtain ⟨k, v2⟩ := kv
    rw [lookupCC] at h
    by_cases hk : k = c
    · rw [if_pos hk] at h
      cases h
      exact List.mem_cons_self _ _
    · rw [if_neg hk] at h
      exact List.mem_cons_of_mem _ (ih c v h)

theorem pyLowerChar_safe (c : Char) (hc1 : c ≠ '/') (hc2 : c ≠ Char.ofNat 0) :
    pyLowerChar c ≠ '/' ∧ pyLowerChar c ≠ Char.ofNat 0 := by
  unfold pyLowerChar
  cases h : lookupCC asciiLowerTable c with
  | none => exact ⟨hc1, hc2⟩
  | some v =>
    have hv : v ∈ asciiLowerTable.map Prod.snd := lookupCC_mem_values _ _ _ h
    constructor
    · intro he
      have he2 : v = '/' := he
      rw [he2] at hv
      exact absurd hv (by decide)
    · intro he
      have he2 : v = Char.ofNat 0 := he
      rw [he2] at hv
      exact absurd hv (by decide)

/-- C5 (counterexample): the normalization only replaces spaces and
lowercases; a title containing a path separator produces a filename that is
not a safe path component. -/
theorem c5_counterexample :
    ¬ isSafePathComponent (report_filename "../secret".data) := by decide

/-- C5 (amended): the per-run filename follows the pattern
dfir_report_(title with spaces replaced by underscores, lowercased).html;
it is a safe filesystem path component whenever the incident title itself
contains no path separator and no NUL byte — but the normalization does not
remove such characters, so arbitrary titles are not safe (counterexample). -/
theorem c5_filename_amended (t : Str) (h1 : '/' ∉ t) (h2 : Char.ofNat 0 ∉ t) :
    report_filename t =
      "dfir_report_".data ++ pyLower (replaceAll [' '] ['_'] t) ++ ".html".data ∧
    isSafePathComponent (report_filename t) := by
  refine ⟨rfl, ?_⟩
  have hmid : ∀ c ∈ pyLower (replaceAll [' '] ['_'] t), c ≠ '/' ∧ c ≠ Char.ofNat 0 := by
    intro c hc
    obtain ⟨c0, hc0, rfl⟩ := List.mem_map.mp hc
    rcases mem_replaceSpace hc0 with h | h
    · rw [h]
      exact ⟨by decide, by decide⟩
    · exact pyLowerChar_safe c0 (fun he => h1 (he ▸ h)) (fun he => h2 (he ▸ h))
  have hlen : (report_filename t).length =
      12 + (pyLower (replaceAll [' '] ['_'] t)).length + 5 := by
    have e1 : ("dfir_report_".data).length = 12 := by decide
    have e2 : (".html".data).length = 5 := by decide
    simp [report_filename, List.length_append, e1, e2]
    omega
  refine ⟨?_, ?_, ?_, ?_, ?_⟩
  · intro h
    have hl := congrArg List.length h
    rw [hlen] at hl
    simp at hl
  · intro hc
    rcases List.mem_append.mp hc with hc | hc
    · rcases List.mem_append.mp hc with hc | hc
      · exact absurd hc (by decide)
      · exact (hmid _ hc).1 rfl
    · exact absurd hc (by decide)
  · intro hc
    rcases List.mem_append.mp hc with hc | hc
    · rcases List.mem_append.mp hc with hc | hc
      · exact absurd hc (by decide)
      · exact (hmid _ hc).2 rfl
    · exact absurd hc (by decide)
  · intro h
    have hl := congrArg List.length h
    rw [hlen] at hl
    have e3 : ((".".data : Str)).length = 1 := by decide
    rw [e3] at hl
    omega
  · intro h
    have hl := congrArg List.length h
    rw [hlen] at hl
    have e4 : (("..".data : Str)).length = 2 := by decide
    rw [e4] at hl
    omega

/-- Witness for the amended C5 statement at a concrete incident title. -/
theorem c5_filename_amended_witness :
    report_filename "My Incident".data =
      "dfir_report_".data ++ pyLower (replaceAll [' '] ['_'] "My Incident".data) ++ ".html".data ∧
    isSafePathComponent (report_filename "My Incident".data) :=
  c5_filename_amended "My Incident".data (by decide) (by decide)

/-- C1 (counterexample): two start requests racing on the same stage can
both pass the `is_alive` check before either spawns — the check-and-spawn
pair is not guarded by any lock — so two workers of the same stage become
alive at once. -/
theorem c1_counterexample :
    (runSched { workers := 0, pcs := [ReqPC.start, ReqPC.start] } [0, 1, 0, 1]).workers = 2 := by
  decide

theorem atomicStart_eq (w : Nat) : atomicStart w = if 0 < w then w else w + 1 := by
  unfold atomicStart stepPC
  by_cases h : 0 < w
  · simp [h]
  · simp [h]

/-- C1 (amended): when each start request executes its liveness check and
spawn atomically (serialized request handling), at most one worker per
stage is alive after any sequence of start requests and worker exits, and a
start request arriving while a worker is alive is rejected with no
transition and no new worker.  Racing, interleaved start requests break the
invariant (counterexample). -/
theorem c1_mutual_exclusion_amended (evs : List StageEvent) (w : Nat) (hw : w ≤ 1) :
    runStage w evs ≤ 1 ∧ (0 < w → atomicStart w = w) := by
  constructor
  · induction evs generalizing w with
    | nil => exact hw
    | cons e rest ih =>
      rw [runStage]
      apply ih
      cases e with
      | startRequest =>
        rw [stageStep, atomicStart_eq]
        by_cases h : 0 < w
        · rw [if_pos h]
          exact hw
        · rw [if_neg h]
          omega
      | workerExit =>
        rw [stageStep]
        omega
  · intro h
    rw [atomicStart_eq, if_pos h]

/-- Witness for the amended C1 statement: serialized start/start/exit/start
never exceeds one alive worker, and a start while one worker is alive is a
no-op. -/
theorem c1_mutual_exclusion_amended_witness :
    runStage 1 [StageEvent.startRequest, StageEvent.workerExit, StageEvent.startRequest] ≤ 1 ∧
    (0 < 1 → atomicStart 1 = 1) :=
  c1_mutual_exclusion_amended
    [StageEvent.startRequest, StageEvent.workerExit, StageEvent.startRequest] 1 (by decide)
